import Mathlib

/-!
# Verification of the CRM-export → price-book pipeline

Shallow embedding of `scripts/import-crm.py`: header resolution, record
normalization, name-pattern categorization, category aggregation and the
XML table lookup. Cells are `String`s, numbers are `ℚ` (Python `float`
parsing is modelled on finite decimal numerals), and Python's `float('inf')`
starting accumulator is modelled by `⊤ : WithTop ℚ`.
-/

/-- Try a predicate at every start position (every suffix) of the list. -/
def anyPos (f : List Char → Bool) : List Char → Bool
  | [] => f []
  | c :: m => f (c :: m) || anyPos f m

/-- `pat` occurs as a contiguous substring of the character list. -/
def infixOf (pat : String) (l : List Char) : Bool := anyPos (pat.data.isPrefixOf ·) l

/-- Substring test: Python's `needle in haystack` on strings. -/
def containsStr (s pat : String) : Bool := infixOf pat s.data

/-- Python `str.strip()`: drop whitespace from both ends. -/
def pyStrip (s : String) : String :=
  String.mk (((s.data.dropWhile Char.isWhitespace).reverse.dropWhile Char.isWhitespace).reverse)

/-- Python `str.lower()`: character-wise lowercasing. -/
def pyLower (s : String) : String := String.mk (s.data.map Char.toLower)

/-- Python `str.upper()`: character-wise uppercasing. -/
def pyUpper (s : String) : String := String.mk (s.data.map Char.toUpper)

/-- One fuel-indexed pass of Python's `str.replace(old, '')`: delete every
(non-overlapping, leftmost-first) occurrence of `pat`. The fuel is the list
length at the top call; it never runs out there. -/
def removeOccAux (pat : List Char) : Nat → List Char → List Char
  | _, [] => []
  | 0, l => l
  | fuel + 1, c :: r =>
    if pat.isPrefixOf (c :: r) && !pat.isEmpty then
      removeOccAux pat fuel ((c :: r).drop pat.length)
    else c :: removeOccAux pat fuel r

/-- Python `s.replace(pat, '')`. -/
def pyRemove (s pat : String) : String :=
  String.mk (removeOccAux pat.data s.data.length s.data)

/-- Numeric value of a digit list, most significant first. -/
def digitsToNat (l : List Char) : Nat := l.foldl (fun n c => n * 10 + (c.toNat - 48)) 0

/-- Split a character list into its leading digits and the rest. -/
def splitDigits (l : List Char) : List Char × List Char :=
  (l.takeWhile Char.isDigit, l.dropWhile Char.isDigit)

/-- Optional leading sign; returns (isNegative, rest). -/
def parseSign : List Char → Bool × List Char
  | '+' :: r => (false, r)
  | '-' :: r => (true, r)
  | l => (false, l)

/-- Mantissa of a decimal numeral: `digits`, `digits.digits`, `digits.` or
`.digits`. Returns the digit string's value, the number of fractional digits
and the unconsumed rest (the value is digits-joined / 10 ^ fractional). -/
def parseMantissa (l : List Char) : Option ((ℕ × ℕ) × List Char) :=
  let p1 := splitDigits l
  match p1.2 with
  | '.' :: r2 =>
    let p2 := splitDigits r2
    if p1.1.isEmpty && p2.1.isEmpty then none
    else some ((digitsToNat (p1.1 ++ p2.1), p2.1.length), p2.2)
  | _ => if p1.1.isEmpty then none else some ((digitsToNat p1.1, 0), p1.2)

/-- Optional exponent part `e±digits`; consumes nothing when no `e`/`E` follows. -/
def parseExpPart (l : List Char) : Option (ℤ × List Char) :=
  match l with
  | [] => some (0, [])
  | c :: r =>
    if c = 'e' ∨ c = 'E' then
      let sg := parseSign r
      let d := splitDigits sg.2
      if d.1.isEmpty then none
      else some ((if sg.1 then -(digitsToNat d.1 : ℤ) else (digitsToNat d.1 : ℤ)), d.2)
    else some (0, l)

/-- Modelled from Python's `float(str)` restricted to finite decimal numerals:
surrounding whitespace, an optional sign, a decimal mantissa and an optional
exponent. The special spellings `inf`/`nan` and underscore separators are
outside the model. Returns `none` exactly when Python raises `ValueError`. -/
def pyFloat? (s : String) : Option ℚ :=
  let l := ((s.data.dropWhile Char.isWhitespace).reverse.dropWhile Char.isWhitespace).reverse
  let sg := parseSign l
  match parseMantissa sg.2 with
  | none => none
  | some m =>
    match parseExpPart m.2 with
    | none => none
    | some e =>
      if e.2.isEmpty then
        let D : ℤ := if sg.1 then -(m.1.1 : ℤ) else (m.1.1 : ℤ)
        let k : ℤ := e.1 - (m.1.2 : ℤ)
        if 0 ≤ k then some (((D * ((10 ^ k.toNat : ℕ) : ℤ) : ℤ) : ℚ))
        else some (mkRat D (10 ^ (-k).toNat))
      else none

/-- `clean_price`: strip `,`/`$` characters and parse; `0` on empty or parse failure. -/
def clean_price (s : String) : ℚ :=
  if s = "" then 0
  else
    match pyFloat? (String.mk (s.data.filter (fun c => c ≠ ',' ∧ c ≠ '$'))) with
    | some q => q
    | none => 0

/-- `clean_hours`: parse as a number; `0` on empty or parse failure. -/
def clean_hours (s : String) : ℚ :=
  if s = "" then 0
  else
    match pyFloat? s with
    | some q => q
    | none => 0

/-! ## Categorizer: the regex patterns of `CATEGORY_PATTERNS`

Each Python regex is translated to a Boolean predicate on the list of
characters of the uppercased name, with `re.search` existential semantics:
`infixOf` is a bare literal alternative, `dotFindP` plays the role of `.*`
(consuming anything but a newline) and the two negative lookaheads
`(?!.*EV)` / `(?!.*WP)` appear as negated `dotFind`s at the position that
follows the matched literal. -/

/-- `.*` followed by a predicate: some suffix reachable without crossing a
newline satisfies `f`. -/
def dotFindP (f : List Char → Bool) : List Char → Bool
  | [] => f []
  | c :: m => f (c :: m) || (c != '\n' && dotFindP f m)

/-- `.*b`: the literal `b` occurs later, with no newline in between. -/
def dotFind (b : String) (m : List Char) : Bool := dotFindP (fun m' => b.data.isPrefixOf m') m

/-- `a.*b`: `a` occurs, and `b` occurs after it with no newline in between. -/
def searchSeq (a b : String) (l : List Char) : Bool :=
  anyPos (fun m => a.data.isPrefixOf m && dotFind b (m.drop a.data.length)) l

/-- `(PANEL|SERVICE.*PANEL|SUB PANEL)` -/
def pat1 (l : List Char) : Bool :=
  infixOf "PANEL" l || searchSeq "SERVICE" "PANEL" l || infixOf "SUB PANEL" l

/-- `SURGE` -/
def pat2 (l : List Char) : Bool := infixOf "SURGE" l

/-- `(E CAR|EV CIRCUIT|EV CHARGER)` -/
def pat3 (l : List Char) : Bool :=
  infixOf "E CAR" l || infixOf "EV CIRCUIT" l || infixOf "EV CHARGER" l

/-- `HOT TUB` -/
def pat4 (l : List Char) : Bool := infixOf "HOT TUB" l

/-- `240V.*CKT(?!.*EV)` -/
def pat5 (l : List Char) : Bool :=
  anyPos (fun m => "240V".data.isPrefixOf m &&
    dotFindP (fun m' => "CKT".data.isPrefixOf m' && !(dotFind "EV" (m'.drop 3))) (m.drop 4)) l

/-- `OUTLET.*WP|WP.*OUTLET` -/
def pat6 (l : List Char) : Bool := searchSeq "OUTLET" "WP" l || searchSeq "WP" "OUTLET" l

/-- `(FLOOD|SOFFIT|COACH LT|LANDSCAPE)` -/
def pat7 (l : List Char) : Bool :=
  infixOf "FLOOD" l || infixOf "SOFFIT" l || infixOf "COACH LT" l || infixOf "LANDSCAPE" l

/-- `(RCAN|WAFER|RECESSED)` -/
def pat8 (l : List Char) : Bool :=
  infixOf "RCAN" l || infixOf "WAFER" l || infixOf "RECESSED" l

/-- `TAPE LT` -/
def pat9 (l : List Char) : Bool := infixOf "TAPE LT" l

/-- `(OUTLET|SWITCH|DIMMER|RECEPTACLE)(?!.*WP)` -/
def pat10 (l : List Char) : Bool :=
  anyPos (fun m =>
    ["OUTLET", "SWITCH", "DIMMER", "RECEPTACLE"].any
      (fun w => w.data.isPrefixOf m && !(dotFind "WP" (m.drop w.data.length)))) l

/-- `(FIXTURE|LIGHT BOX|CHANDELIER|PENDANT)` -/
def pat11 (l : List Char) : Bool :=
  infixOf "FIXTURE" l || infixOf "LIGHT BOX" l || infixOf "CHANDELIER" l || infixOf "PENDANT" l

/-- `(FAN|CEILING FAN)` -/
def pat12 (l : List Char) : Bool := infixOf "FAN" l || infixOf "CEILING FAN" l

/-- `(EXHAUST|BATH FAN|VENT FAN)` -/
def pat13 (l : List Char) : Bool :=
  infixOf "EXHAUST" l || infixOf "BATH FAN" l || infixOf "VENT FAN" l

/-- `(GEN |GENERATOR|18KW|22KW|24KW|26KW)` -/
def pat14 (l : List Char) : Bool :=
  infixOf "GEN " l || infixOf "GENERATOR" l || infixOf "18KW" l || infixOf "22KW" l ||
    infixOf "24KW" l || infixOf "26KW" l

/-- `INTERLOCK` -/
def pat15 (l : List Char) : Bool := infixOf "INTERLOCK" l

/-- `AIR CONDITIONER|A/C|AC CIRCUIT` -/
def pat16 (l : List Char) : Bool :=
  infixOf "AIR CONDITIONER" l || infixOf "A/C" l || infixOf "AC CIRCUIT" l

/-- `SMOKE|CARBON|CO DETECTOR` -/
def pat17 (l : List Char) : Bool :=
  infixOf "SMOKE" l || infixOf "CARBON" l || infixOf "CO DETECTOR" l

/-- `GFCI|GFI` -/
def pat18 (l : List Char) : Bool := infixOf "GFCI" l || infixOf "GFI" l

/-- `BREAKER` -/
def pat19 (l : List Char) : Bool := infixOf "BREAKER" l

/-- The ordered rule table `CATEGORY_PATTERNS` of the source. -/
def CATEGORY_PATTERNS : List ((List Char → Bool) × String) :=
  [(pat1, "Panel Upgrades"), (pat2, "Surge Protection"), (pat3, "EV Charging"),
   (pat4, "Hot Tub Circuits"), (pat5, "Heavy Duty Circuits"), (pat6, "Exterior Outlets"),
   (pat7, "Exterior Lighting"), (pat8, "Recessed Lighting"), (pat9, "LED Tape Lighting"),
   (pat10, "Outlets & Switches"), (pat11, "Interior Lighting"), (pat12, "Ceiling Fans"),
   (pat13, "Bathrooms"), (pat14, "Home Generators"), (pat15, "Portable Generator"),
   (pat16, "HVAC Circuits"), (pat17, "Safety Devices"), (pat18, "GFCI Protection"),
   (pat19, "Breakers")]

/-- `categorize_package`: uppercase the name, return the category of the first
matching rule, `"Other Services"` when none matches. -/
def categorize_package (name : String) : String :=
  match CATEGORY_PATTERNS.find? (fun pc => pc.1 (pyUpper name).data) with
  | some pc => pc.2
  | none => "Other Services"

/-! ## Header Resolver -/

/-- The header map `col_map`: optional column index per semantic key. -/
structure ColMap where
  id : Option Nat := none
  name : Option Nat := none
  price : Option Nat := none
  hours : Option Nat := none
  labor_cost : Option Nat := none
  description : Option Nat := none
  show_mobile : Option Nat := none
deriving Repr, DecidableEq

/-- One iteration of the header loop: the `elif` chain on the stripped,
lowercased header cell, assigning (overwriting) the matched key. -/
def headerStep (i : Nat) (h : String) (m : ColMap) : ColMap :=
  let hl := pyLower (pyStrip h)
  if containsStr hl "internal id" then { m with id := some i }
  else if hl == "name" then { m with name := some i }
  else if containsStr hl "sales price" then { m with price := some i }
  else if containsStr hl "labor hours" then { m with hours := some i }
  else if containsStr hl "labor cost" then { m with labor_cost := some i }
  else if containsStr hl "description" then { m with description := some i }
  else if containsStr hl "show on mobile" then { m with show_mobile := some i }
  else m

/-- The header loop from column index `i` onward. -/
def resolveHeaderFrom (i : Nat) : List String → ColMap → ColMap
  | [], m => m
  | h :: rest, m => resolveHeaderFrom (i + 1) rest (headerStep i h m)

/-- Build `col_map` from the header row (`for i, h in enumerate(header)`). -/
def resolveHeader (header : List String) : ColMap :=
  resolveHeaderFrom 0 header {}

/-- `max(col_map.values(), default=0)`. -/
def colMax (m : ColMap) : Nat :=
  (([m.id, m.name, m.price, m.hours, m.labor_cost, m.description, m.show_mobile].filterMap
    (fun x => x)).foldl max 0)

/-- The branch of the header `elif` chain a column is routed to, numbered
0–6 in source order (id, name, price, hours, labor_cost, description,
show_mobile): the first branch whose pattern matches the stripped,
lowercased cell wins within the column; `none` when no branch matches. -/
def keySlot (h : String) : Option Nat :=
  let hl := pyLower (pyStrip h)
  if containsStr hl "internal id" then some 0
  else if hl == "name" then some 1
  else if containsStr hl "sales price" then some 2
  else if containsStr hl "labor hours" then some 3
  else if containsStr hl "labor cost" then some 4
  else if containsStr hl "description" then some 5
  else if containsStr hl "show on mobile" then some 6
  else none

/-- The `ColMap` field of a branch number, in the same source order. -/
def slotGet (k : Nat) (m : ColMap) : Option Nat :=
  match k with
  | 0 => m.id
  | 1 => m.name
  | 2 => m.price
  | 3 => m.hours
  | 4 => m.labor_cost
  | 5 => m.description
  | 6 => m.show_mobile
  | _ => none

/-! ## Record Normalizer -/

/-- A normalized package record. -/
structure Package where
  id : String
  name : String
  displayName : String
  price : ℚ
  laborHours : ℚ
  description : String
  category : String
  tier : Option String
  upsellTo : List String
deriving Repr, DecidableEq

/-- `row[col_map.get('name', 1)] if col_map.get('name') is not None else ''` —
note the positional default inside `.get` is dead: the read yields the cell at
the resolved index when resolved, and the constant `''` otherwise. -/
def resolve_name (cm : ColMap) (row : List String) : String :=
  match cm.name with
  | some i => row.getD i ""
  | none => ""

/-- Mobile-visibility read; the constant `'Yes'` when unresolved. -/
def resolve_show_mobile (cm : ColMap) (row : List String) : String :=
  match cm.show_mobile with
  | some i => row.getD i ""
  | none => "Yes"

/-- Price read: `clean_price` of the cell when resolved, `clean_price(0) = 0`
when unresolved. -/
def resolve_price (cm : ColMap) (row : List String) : ℚ :=
  match cm.price with
  | some i => clean_price (row.getD i "")
  | none => 0

/-- Id read; `''` when unresolved. -/
def resolve_id (cm : ColMap) (row : List String) : String :=
  match cm.id with
  | some i => row.getD i ""
  | none => ""

/-- Hours read: `clean_hours` of the cell when resolved, `clean_hours(0) = 0`
when unresolved. -/
def resolve_hours (cm : ColMap) (row : List String) : ℚ :=
  match cm.hours with
  | some i => clean_hours (row.getD i "")
  | none => 0

/-- Description read; `''` when unresolved. -/
def resolve_description (cm : ColMap) (row : List String) : String :=
  match cm.description with
  | some i => row.getD i ""
  | none => ""

/-- `re.sub(r'^(AMSFL_|GENFL_)', '', name)`: drop one anchored vendor marker. -/
def stripVendor (name : String) : String :=
  if "AMSFL_".data.isPrefixOf name.data then String.mk (name.data.drop 6)
  else if "GENFL_".data.isPrefixOf name.data then String.mk (name.data.drop 6)
  else name

/-- The two display-name cleanup steps of the normalizer. -/
def display_of (name : String) : String :=
  pyStrip (pyRemove (pyStrip (stripVendor name)) "INSTALL ")

/-- The body of the per-row loop of `process_crm_data`: `none` when the row is
skipped, `some` of the record otherwise. -/
def processRow (cm : ColMap) (row : List String) : Option Package :=
  if row.length < colMax cm + 1 then none
  else if (resolve_name cm row == "") || (pyStrip (resolve_name cm row) == "") then none
  else if (resolve_show_mobile cm row != "") &&
      containsStr (pyLower (resolve_show_mobile cm row)) "no" then none
  else if resolve_price cm row ≤ 0 then none
  else some
    { id := resolve_id cm row
      name := resolve_name cm row
      displayName := display_of (resolve_name cm row)
      price := resolve_price cm row
      laborHours := resolve_hours cm row
      description := resolve_description cm row
      category := categorize_package (resolve_name cm row)
      tier := none
      upsellTo := [] }

/-- `process_crm_data`: resolve the header from row 0, normalize the rest. -/
def process_crm_data (rows : List (List String)) : List Package :=
  match rows with
  | [] => []
  | header :: body => body.filterMap (processRow (resolveHeader header))

/-! ## Aggregator and Document Builder -/

/-- Ordering of packages by price, used by the per-category sort. -/
def priceLe (p q : Package) : Prop := p.price ≤ q.price

instance : DecidableRel priceLe := fun p q => inferInstanceAs (Decidable (p.price ≤ q.price))

instance : IsTotal Package priceLe := ⟨fun p q => le_total p.price q.price⟩

instance : IsTrans Package priceLe := ⟨fun _ _ _ h h' => le_trans h h'⟩

/-- The icon lookup table of `get_category_icon`. -/
def ICONS : List (String × String) :=
  [("Panel Upgrades", "zap"), ("Surge Protection", "shield"),
   ("EV Charging", "battery-charging"), ("Hot Tub Circuits", "droplet"),
   ("Heavy Duty Circuits", "plug"), ("Exterior Outlets", "sun"),
   ("Exterior Lighting", "sun"), ("Recessed Lighting", "circle"),
   ("LED Tape Lighting", "minus"), ("Outlets & Switches", "toggle-right"),
   ("Interior Lighting", "lamp"), ("Ceiling Fans", "wind"),
   ("Bathrooms", "droplet"), ("Home Generators", "power"),
   ("Portable Generator", "battery"), ("HVAC Circuits", "thermometer"),
   ("Safety Devices", "alert-circle"), ("GFCI Protection", "shield"),
   ("Breakers", "square")]

/-- `icons.get(category, 'package')`. -/
def get_category_icon (category : String) : String :=
  match ICONS.find? (fun kv => kv.1 == category) with
  | some kv => kv.2
  | none => "package"

/-- A category group of the output document. `startingAt` lives in
`WithTop ℚ` because the source initializes the running minimum to
`float('inf')`. -/
structure CategoryGroup where
  name : String
  startingAt : WithTop ℚ
  packages : List Package
  icon : String
deriving Repr, DecidableEq

/-- The running minimum of `organize_by_category`, starting at `float('inf')`:
`if pkg['price'] < acc: acc = pkg['price']`. -/
def startingOf (group : List Package) : WithTop ℚ :=
  group.foldl (fun acc p => if (p.price : WithTop ℚ) < acc then (p.price : WithTop ℚ) else acc) ⊤

/-- `organize_by_category`: group by category, sort group names ascending,
sort each group by price (Python's `list.sort` is the stable ascending sort,
rendered here as insertion sort), attach starting price and icon. -/
def organize_by_category (packages : List Package) : List CategoryGroup :=
  (((packages.map Package.category).dedup).insertionSort (· ≤ ·)).map
    (fun c =>
      { name := c
        startingAt := startingOf (packages.filter (fun p => p.category == c))
        packages := (packages.filter (fun p => p.category == c)).insertionSort priceLe
        icon := get_category_icon c })

/-- The price-book document. -/
structure Document where
  version : String
  lastUpdated : Option String
  categories : List CategoryGroup
deriving Repr, DecidableEq

/-- The output structure assembled by `main`. -/
def build_document (rows : List (List String)) : Document :=
  { version := "1.0"
    lastUpdated := none
    categories := organize_by_category (process_crm_data rows) }

/-! ## Row Source Adapter: the spreadsheet-markup (XML) path -/

/-- An XML element: tag, leading text, children (in document order). -/
inductive XmlElem where
  | node (tag : String) (text : Option String) (children : List XmlElem)

/-- The element's tag. -/
def XmlElem.tag : XmlElem → String
  | .node t _ _ => t

/-- The element's leading text, `elem.text` of ElementTree. -/
def XmlElem.text : XmlElem → Option String
  | .node _ x _ => x

mutual

/-- `elem.iter()`: the element and all its descendants, preorder. -/
def iterElems : XmlElem → List XmlElem
  | .node t x cs => .node t x cs :: iterList cs

/-- Preorder walk of a forest of elements. -/
def iterList : List XmlElem → List XmlElem
  | [] => []
  | c :: cs => iterElems c ++ iterList cs

end

/-- `elem.find('.//fullTag', ns)`: first proper descendant with the given
(namespace-qualified) tag, in document order. -/
def findDesc (full : String) (e : XmlElem) : Option XmlElem :=
  match e with
  | .node _ _ cs => (iterList cs).find? (fun c => c.tag == full)

/-- The namespace-qualified Worksheet tag used by `find('.//ss:Worksheet', ns)`. -/
def nsWorksheet : String := "\x7burn:schemas-microsoft-com:office:spreadsheet\x7dWorksheet"

/-- The namespace-qualified Table tag used by `find('.//ss:Table', ns)`. -/
def nsTable : String := "\x7burn:schemas-microsoft-com:office:spreadsheet\x7dTable"

/-- Extract the text of the first `Data`-tagged element under a cell
(`d.text or ''`; `''` when there is no such element). -/
def cellData (cellE : XmlElem) : String :=
  match (iterElems cellE).find? (fun d => containsStr d.tag "Data") with
  | some d =>
    match d.text with
    | some s => s
    | none => ""
  | none => ""

/-- The cell walk of one row-like element. -/
def rowCells (rowE : XmlElem) : List String :=
  (iterElems rowE).filterMap
    (fun cellE => if containsStr cellE.tag "Cell" then some (cellData cellE) else none)

/-- The worksheet lookup: namespaced `find` first, then the namespace-agnostic
scan over `root.iter()` for a tag containing "Worksheet". -/
def worksheetOf (root : XmlElem) : Option XmlElem :=
  match findDesc nsWorksheet root with
  | some w => some w
  | none => (iterElems root).find? (fun e => containsStr e.tag "Worksheet")

/-- The table lookup: namespaced `find` under the worksheet when one was
found, then the namespace-agnostic scan over `root.iter()` for a tag
containing "Table". -/
def tableOf (root : XmlElem) : Option XmlElem :=
  match
    (match worksheetOf root with
     | some w => findDesc nsTable w
     | none => none) with
  | some t => some t
  | none => (iterElems root).find? (fun e => containsStr e.tag "Table")

/-- `parse_xml_spreadsheet`: locate the worksheet (namespaced, else scan), the
table (namespaced under the worksheet, else scan the whole root), raise
`ValueError` when no table is found, else walk row-like elements and collect
their non-empty cell lists. -/
def parse_xml_spreadsheet (root : XmlElem) : Except String (List (List String)) :=
  match tableOf root with
  | none => Except.error "Could not find Table element in XML"
  | some t =>
    Except.ok ((iterElems t).filterMap
      (fun rowE =>
        if containsStr rowE.tag "Row" then
          if (rowCells rowE).isEmpty then none else some (rowCells rowE)
        else none))

/-- The run on a spreadsheet-markup input: parse, then build the document; a
parse error propagates and no document is produced. -/
def run_pipeline_xml (root : XmlElem) : Except String Document :=
  match parse_xml_spreadsheet root with
  | Except.error e => Except.error e
  | Except.ok rows => Except.ok (build_document rows)

/-! ## Serialization (modelled from the `json.dump` call: a deterministic
rendering of the document; field order is the dict insertion order of the
source, exact whitespace of `indent=2` is not reproduced). -/

/-- Render a JSON string literal (escaping quote and backslash). -/
def renderJsonString (s : String) : String :=
  "\"" ++ (s.data.flatMap
    (fun c => if c = '"' then ['\\', '"'] else if c = '\\' then ['\\', '\\'] else [c])).asString
    ++ "\""

/-- Render a possibly-infinite starting price. -/
def renderStarting (q : WithTop ℚ) : String :=
  if h : q = ⊤ then "Infinity" else toString (q.untop h)

/-- Render a JSON array from rendered items. -/
def renderArr (items : List String) : String := "[" ++ String.intercalate ", " items ++ "]"

/-- Render one package object. -/
def renderPackage (p : Package) : String :=
  "\x7b\"id\": " ++ renderJsonString p.id ++ ", \"name\": " ++ renderJsonString p.name ++
    ", \"displayName\": " ++ renderJsonString p.displayName ++ ", \"price\": " ++
    toString p.price ++ ", \"laborHours\": " ++ toString p.laborHours ++
    ", \"description\": " ++ renderJsonString p.description ++ ", \"category\": " ++
    renderJsonString p.category ++ ", \"tier\": null, \"upsellTo\": []\x7d"

/-- Render one category group object. -/
def renderGroup (g : CategoryGroup) : String :=
  "\x7b\"name\": " ++ renderJsonString g.name ++ ", \"startingAt\": " ++
    renderStarting g.startingAt ++ ", \"packages\": " ++
    renderArr (g.packages.map renderPackage) ++ ", \"icon\": " ++
    renderJsonString g.icon ++ "\x7d"

/-- Render the whole document. -/
def renderDocument (d : Document) : String :=
  "\x7b\"version\": " ++ renderJsonString d.version ++ ", \"lastUpdated\": null, " ++
    "\"categories\": " ++ renderArr (d.categories.map renderGroup) ++ "\x7d"

/-! ## Theorems -/

/-- C1: a row after the header yields a record iff the resolved name is
non-empty after stripping, the resolved mobile-visibility value's lowercased
form does not contain "no", the cleaned price is strictly positive, and the
row has at least `max(col_map.values(), default=0) + 1` cells. -/
theorem emitted_iff_conditions (header row : List String) :
    ((processRow (resolveHeader header) row).isSome = true) ↔
      (pyStrip (resolve_name (resolveHeader header) row) ≠ "" ∧
       containsStr (pyLower (resolve_show_mobile (resolveHeader header) row)) "no" = false ∧
       0 < resolve_price (resolveHeader header) row ∧
       colMax (resolveHeader header) + 1 ≤ row.length) := by
  set cm := resolveHeader header with hcm
  unfold processRow
  split_ifs with h1 h2 h3 h4
  · simp only [Option.isSome_none, Bool.false_eq_true, false_iff]
    intro h
    omega
  · simp only [Option.isSome_none, Bool.false_eq_true, false_iff]
    intro h
    rcases Bool.or_eq_true _ _ |>.mp h2 with he | ht
    · have hne : resolve_name cm row = "" := by simpa using he
      exact h.1 (by rw [hne]; decide)
    · exact h.1 (by simpa using ht)
  · simp only [Option.isSome_none, Bool.false_eq_true, false_iff]
    intro h
    have hh := (Bool.and_eq_true _ _).mp h3
    rw [h.2.1] at hh
    simp at hh
  · simp only [Option.isSome_none, Bool.false_eq_true, false_iff]
    intro h
    exact absurd h.2.2.1 (not_lt.mpr h4)
  · simp only [Option.isSome_some, true_iff]
    refine ⟨?_, ?_, ?_, ?_⟩
    · intro ht
      exact h2 (by rw [ht]; simp)
    · by_cases hsm : resolve_show_mobile cm row = ""
      · rw [hsm]; decide
      · by_contra hc
        exact h3 (by
          simp only [Bool.and_eq_true, bne_iff_ne, ne_eq]
          exact ⟨hsm, by simpa using hc⟩)
    · exact lt_of_not_le (fun hle => h4 hle)
    · omega

/-- C1 witness: the four conditions hold for a concrete header and row, and
the record is emitted. -/
theorem emitted_iff_conditions_witness :
    (processRow (resolveHeader ["Name", "Sales Price"]) ["Widget", "5"]).isSome = true :=
  (emitted_iff_conditions ["Name", "Sales Price"] ["Widget", "5"]).mpr (by decide)

/-- C9: the pipeline is a pure function of the input rows — two runs on the
same row sequence give the same document and the same serialized output. -/
theorem pipeline_deterministic (rows : List (List String)) :
    build_document rows = build_document rows ∧
    renderDocument (build_document rows) = renderDocument (build_document rows) :=
  ⟨rfl, rfl⟩

/-- C10: the icon table has no entry for "Other Services", so the fallback
category gets the default icon "package", and the default branch is reached
through the Categorizer's own fallback. -/
theorem other_services_default_icon :
    (∀ kv ∈ ICONS, kv.1 ≠ "Other Services") ∧
    get_category_icon "Other Services" = "package" ∧
    categorize_package "WATER HEATER" = "Other Services" ∧
    get_category_icon (categorize_package "WATER HEATER") = "package" := by
  refine ⟨?_, by decide, by decide, by decide⟩
  decide

/-- C10 witness: instance of the table-miss fact at a concrete table entry. -/
theorem other_services_default_icon_witness : ("Panel Upgrades" : String) ≠ "Other Services" :=
  other_services_default_icon.1 ("Panel Upgrades", "zap") (by decide)

/-- C2 counterexample: with header `["Name", "Sales Price"]` the id column is
unresolved, row cell 0 is "Widget", yet the emitted record's id is the
constant `""` — the claimed positional fallback (id→0) does not happen. -/
theorem fallback_positional_counterexample :
    process_crm_data [["Name", "Sales Price"], ["Widget", "5"]] =
      [{ id := "", name := "Widget", displayName := "Widget", price := 5, laborHours := 0,
         description := "", category := "Other Services", tier := none, upsellTo := [] }] ∧
    (resolveHeader ["Name", "Sales Price"]).id = none ∧
    (([["Name", "Sales Price"], ["Widget", "5"]].getD 1 []).getD 0 "") = "Widget" ∧
    ("" : String) ≠ "Widget" := by decide

/-- C2 amended: when the header leaves a key unresolved, each read of that
field falls back to a fixed constant value, not to a positional cell:
name→`''` (so no record is ever emitted), price→`0` (likewise), id→`''`,
hours→`0`, description→`''`, show-on-mobile→`'Yes'`. -/
theorem fallback_constant_defaults (header : List String) :
    ((resolveHeader header).name = none →
      ∀ body : List (List String), process_crm_data (header :: body) = []) ∧
    ((resolveHeader header).price = none →
      ∀ row : List String, processRow (resolveHeader header) row = none) ∧
    (∀ row p, processRow (resolveHeader header) row = some p →
      ((resolveHeader header).id = none → p.id = "") ∧
      ((resolveHeader header).hours = none → p.laborHours = 0) ∧
      ((resolveHeader header).description = none → p.description = "")) ∧
    ((resolveHeader header).show_mobile = none →
      ∀ row : List String, resolve_show_mobile (resolveHeader header) row = "Yes") := by
  refine ⟨?_, ?_, ?_, ?_⟩
  · intro hn body
    rw [show process_crm_data (header :: body) =
          body.filterMap (processRow (resolveHeader header)) from rfl]
    rw [List.filterMap_eq_nil_iff]
    intro row _
    unfold processRow
    have : resolve_name (resolveHeader header) row = "" := by
      unfold resolve_name
      rw [hn]
    simp [this]
  · intro hp row
    unfold processRow
    have : resolve_price (resolveHeader header) row = 0 := by
      unfold resolve_price
      rw [hp]
    simp [this]
  · intro row p hp
    unfold processRow at hp
    split_ifs at hp
    rw [Option.some.injEq] at hp
    subst hp
    refine ⟨?_, ?_, ?_⟩
    · intro h
      show resolve_id (resolveHeader header) row = ""
      unfold resolve_id
      rw [h]
    · intro h
      show resolve_hours (resolveHeader header) row = 0
      unfold resolve_hours
      rw [h]
    · intro h
      show resolve_description (resolveHeader header) row = ""
      unfold resolve_description
      rw [h]
  · intro h row
    unfold resolve_show_mobile
    rw [h]

/-- C2 amended witness: with an unresolving header, a wide-enough row with a
non-empty second cell still yields no record. -/
theorem fallback_constant_defaults_witness :
    process_crm_data [["x"], ["a", "b"]] = [] :=
  (fallback_constant_defaults ["x"]).1 (by decide) [["a", "b"]]

/-- Helper: a column routed to branch `k` assigns that key its own index. -/
theorem headerStep_slot_of (i : Nat) (h : String) (m : ColMap) (k : Nat)
    (hk : keySlot h = some k) : slotGet k (headerStep i h m) = some i := by
  dsimp only [keySlot] at hk
  dsimp only [headerStep]
  split_ifs at hk ⊢ <;> (cases hk; rfl)

/-- Helper: a column not routed to branch `k` leaves that key unchanged. -/
theorem headerStep_slot_keep (i : Nat) (h : String) (m : ColMap) (k : Nat)
    (hk : keySlot h ≠ some k) : slotGet k (headerStep i h m) = slotGet k m := by
  dsimp only [keySlot] at hk
  dsimp only [headerStep]
  split_ifs at hk ⊢ <;>
    first
      | rfl
      | (revert hk
         rcases k with _ | _ | _ | _ | _ | _ | _ | k <;> intro hk <;>
           first
             | rfl
             | exact absurd rfl hk)

/-- Helper: a run of columns not routed to branch `k` leaves it unchanged. -/
theorem resolveHeaderFrom_slot_keep (l : List String) : ∀ (i : Nat) (m : ColMap) (k : Nat),
    (∀ h' ∈ l, keySlot h' ≠ some k) →
    slotGet k (resolveHeaderFrom i l m) = slotGet k m := by
  induction l with
  | nil => intro i m k _; rfl
  | cons a l ih =>
    intro i m k hall
    rw [show resolveHeaderFrom i (a :: l) m = resolveHeaderFrom (i + 1) l (headerStep i a m)
      from rfl]
    rw [ih (i + 1) _ k (fun h' hm => hall h' (List.mem_cons_of_mem a hm))]
    exact headerStep_slot_keep i a m k (hall a (List.mem_cons_self a l))

/-- Helper: a key ends at the last column the loop routed to its branch. -/
theorem resolveHeaderFrom_slot_last (l : List String) : ∀ (i : Nat) (m : ColMap) (k j : Nat)
    (h' : String), l.get? j = some h' → keySlot h' = some k →
    (∀ n h'', j < n → l.get? n = some h'' → keySlot h'' ≠ some k) →
    slotGet k (resolveHeaderFrom i l m) = some (i + j) := by
  induction l with
  | nil => intro i m k j h' hj; simp at hj
  | cons a l ih =>
    intro i m k j h' hj hmatch hlater
    rw [show resolveHeaderFrom i (a :: l) m = resolveHeaderFrom (i + 1) l (headerStep i a m)
      from rfl]
    cases j with
    | zero =>
      have ha : a = h' := by simpa using hj
      subst ha
      rw [resolveHeaderFrom_slot_keep l (i + 1) _ k ?_]
      · rw [headerStep_slot_of i a m k hmatch]
        simp
      · intro h'' hm
        obtain ⟨n, hn⟩ := List.get?_of_mem hm
        exact hlater (n + 1) h'' (Nat.succ_pos n) (by simpa using hn)
    | succ j' =>
      rw [ih (i + 1) (headerStep i a m) k j' h' (by simpa using hj) hmatch ?_]
      · congr 1
        omega
      · intro n h'' hn hget
        exact hlater (n + 1) h'' (by omega) (by simpa using hget)

/-- C3 counterexample: when columns 0 and 1 both match the name pattern, the
resulting header map holds index 1, not the claimed earlier index 0. -/
theorem header_first_match_counterexample :
    (resolveHeader ["name", "name"]).name = some 1 ∧ (1 : Nat) ≠ 0 := by decide

/-- C3 amended: within one column the first branch of the `elif` chain wins —
a column changes a key only when `keySlot` routes it there (clause 1), and
then assigns its own index (clause 2); across columns later assignments
overwrite, so every semantic key maps to the last column routed to its
branch (clause 3), not the earliest. -/
theorem header_last_routed_wins :
    (∀ (i : Nat) (h : String) (m : ColMap) (k : Nat), keySlot h ≠ some k →
      slotGet k (headerStep i h m) = slotGet k m) ∧
    (∀ (i : Nat) (h : String) (m : ColMap) (k : Nat), keySlot h = some k →
      slotGet k (headerStep i h m) = some i) ∧
    (∀ (header : List String) (k j : Nat) (h' : String),
      header.get? j = some h' → keySlot h' = some k →
      (∀ n h'', j < n → header.get? n = some h'' → keySlot h'' ≠ some k) →
      slotGet k (resolveHeader header) = some j) :=
  ⟨headerStep_slot_keep, headerStep_slot_of,
   fun header k j h' hj hm hlast => by
     have := resolveHeaderFrom_slot_last header 0 {} k j h' hj hm hlast
     simpa using this⟩

/-- C3 amended witness: on the duplicated header the name key (branch 1)
maps to the later column 1. -/
theorem header_last_routed_wins_witness : (resolveHeader ["name", "name"]).name = some 1 :=
  header_last_routed_wins.2.2 ["name", "name"] 1 1 "name" (by decide) (by decide)
    (fun n h'' hn hget => by
      have : ["name", "name"].get? n = none := List.get?_eq_none.mpr (by simpa using hn)
      rw [this] at hget
      exact absurd hget (by simp))

/-- Helper: `find?` returns the element at the first index satisfying the
predicate. -/
theorem find?_eq_of_first {α : Type} (p : α → Bool) : ∀ (l : List α) (j : Nat) (hj : j < l.length),
    p (l.get ⟨j, hj⟩) = true →
    (∀ k (hk : k < j), p (l.get ⟨k, Nat.lt_trans hk hj⟩) = false) →
    l.find? p = some (l.get ⟨j, hj⟩) := by
  intro l
  induction l with
  | nil => intro j hj; simp at hj
  | cons a l ih =>
    intro j hj hp hprev
    cases j with
    | zero =>
      rw [List.find?_cons_of_pos _ (by simpa using hp)]
      rfl
    | succ j' =>
      have ha : p a = false := by simpa using hprev 0 (Nat.succ_pos j')
      rw [List.find?_cons_of_neg _ (by simp [ha])]
      exact ih j' (by simpa using hj) (by simpa using hp)
        (fun k hk => by simpa using hprev (k + 1) (by omega))

/-- C4: categorization is a pure function of the raw name — equal names get
equal categories; when no rule's pattern matches the uppercased name the
fallback "Other Services" is returned; and whenever rule `j` matches while
all earlier rules do not, rule `j`'s category is returned. -/
theorem categorize_first_match_spec (name : String) :
    (∀ other : String, name = other → categorize_package name = categorize_package other) ∧
    ((∀ pc ∈ CATEGORY_PATTERNS, pc.1 (pyUpper name).data = false) →
      categorize_package name = "Other Services") ∧
    (∀ j (hj : j < CATEGORY_PATTERNS.length),
      (CATEGORY_PATTERNS.get ⟨j, hj⟩).1 (pyUpper name).data = true →
      (∀ k (hk : k < j), (CATEGORY_PATTERNS.get ⟨k, Nat.lt_trans hk hj⟩).1 (pyUpper name).data
        = false) →
      categorize_package name = (CATEGORY_PATTERNS.get ⟨j, hj⟩).2) := by
  refine ⟨fun other h => by rw [h], ?_, ?_⟩
  · intro hall
    unfold categorize_package
    rw [List.find?_eq_none.mpr (fun pc hm => by simp [hall pc hm])]
  · intro j hj hp hprev
    unfold categorize_package
    rw [find?_eq_of_first (fun pc => pc.1 (pyUpper name).data) CATEGORY_PATTERNS j hj hp hprev]

/-- C4 witness: the first rule fires on a concrete panel name. -/
theorem categorize_first_match_spec_witness :
    categorize_package "PANEL SWAP" = "Panel Upgrades" :=
  (categorize_first_match_spec "PANEL SWAP").2.2 0 (by decide) (by decide)
    (fun k hk => absurd hk (Nat.not_lt_zero k))

/-- C5 counterexample: "BATH FAN INSTALL" matches the earlier fan rule and is
categorized "Ceiling Fans", not the claimed "Bathrooms". -/
theorem bath_fan_counterexample :
    categorize_package "BATH FAN INSTALL" = "Ceiling Fans" ∧
    ("Ceiling Fans" : String) ≠ "Bathrooms" := by decide

/-- C5 amended: every name whose uppercased form contains "FAN" — hence every
"BATH FAN"/"VENT FAN" name — is captured by one of the first twelve rules
(rule 12 `(FAN|CEILING FAN)` at the latest), so rule 13 never assigns it
"Bathrooms"; for "BATH FAN INSTALL" specifically the result is
"Ceiling Fans". Rule 13's "Bathrooms" is reachable only through its
"EXHAUST" alternative (e.g. "EXHAUST HOOD"). -/
theorem fan_rule_shadows_bathrooms :
    (∀ name : String, infixOf "FAN" (pyUpper name).data = true →
      categorize_package name ∈
        ["Panel Upgrades", "Surge Protection", "EV Charging", "Hot Tub Circuits",
         "Heavy Duty Circuits", "Exterior Outlets", "Exterior Lighting", "Recessed Lighting",
         "LED Tape Lighting", "Outlets & Switches", "Interior Lighting", "Ceiling Fans"] ∧
      categorize_package name ≠ "Bathrooms") ∧
    categorize_package "BATH FAN INSTALL" = "Ceiling Fans" ∧
    categorize_package "EXHAUST HOOD" = "Bathrooms" := by
  refine ⟨?_, by decide, by decide⟩
  intro name hFAN
  have h12 : pat12 (pyUpper name).data = true := by
    unfold pat12
    rw [hFAN]
    rfl
  unfold categorize_package
  have hsplit : CATEGORY_PATTERNS =
      [(pat1, "Panel Upgrades"), (pat2, "Surge Protection"), (pat3, "EV Charging"),
       (pat4, "Hot Tub Circuits"), (pat5, "Heavy Duty Circuits"), (pat6, "Exterior Outlets"),
       (pat7, "Exterior Lighting"), (pat8, "Recessed Lighting"), (pat9, "LED Tape Lighting"),
       (pat10, "Outlets & Switches"), (pat11, "Interior Lighting"), (pat12, "Ceiling Fans")] ++
      [(pat13, "Bathrooms"), (pat14, "Home Generators"), (pat15, "Portable Generator"),
       (pat16, "HVAC Circuits"), (pat17, "Safety Devices"), (pat18, "GFCI Protection"),
       (pat19, "Breakers")] := rfl
  rw [hsplit, List.find?_append]
  have hmem12 : (pat12, "Ceiling Fans") ∈
      [(pat1, "Panel Upgrades"), (pat2, "Surge Protection"), (pat3, "EV Charging"),
       (pat4, "Hot Tub Circuits"), (pat5, "Heavy Duty Circuits"), (pat6, "Exterior Outlets"),
       (pat7, "Exterior Lighting"), (pat8, "Recessed Lighting"), (pat9, "LED Tape Lighting"),
       (pat10, "Outlets & Switches"), (pat11, "Interior Lighting"),
       ((pat12 : List Char → Bool), ("Ceiling Fans" : String))] := by
    exact List.get_mem _ 11 (by decide)
  have hsome : (List.find? (fun pc => pc.1 (pyUpper name).data)
      [(pat1, "Panel Upgrades"), (pat2, "Surge Protection"), (pat3, "EV Charging"),
       (pat4, "Hot Tub Circuits"), (pat5, "Heavy Duty Circuits"), (pat6, "Exterior Outlets"),
       (pat7, "Exterior Lighting"), (pat8, "Recessed Lighting"), (pat9, "LED Tape Lighting"),
       (pat10, "Outlets & Switches"), (pat11, "Interior Lighting"),
       (pat12, "Ceiling Fans")]).isSome := by
    rw [List.find?_isSome]
    exact ⟨(pat12, "Ceiling Fans"), hmem12, h12⟩
  obtain ⟨res, hres⟩ := Option.isSome_iff_exists.mp hsome
  rw [hres]
  have hresmem := List.mem_of_find?_eq_some hres
  simp only [Option.or_some]
  simp only [List.mem_cons, List.not_mem_nil, or_false] at hresmem
  rcases hresmem with h | h | h | h | h | h | h | h | h | h | h | h <;>
    · subst h
      exact ⟨by decide, by decide⟩

/-- C5 amended witness: the universal part applied at "BATH FAN INSTALL". -/
theorem fan_rule_shadows_bathrooms_witness :
    categorize_package "BATH FAN INSTALL" ≠ "Bathrooms" :=
  (fan_rule_shadows_bathrooms.1 "BATH FAN INSTALL" (by decide)).2

/-- C6 counterexample: `clean_hours` maps "-1" to the negative value -1, and a
row with hours cell "-1" is emitted with `laborHours = -1 < 0`. -/
theorem labor_hours_negative_counterexample :
    clean_hours "-1" = -1 ∧ ((-1 : ℚ) < 0) ∧
    (process_crm_data [["Name", "Sales Price", "Labor Hours"], ["W", "5", "-1"]]).map
      Package.laborHours = [-1] := by decide

/-- C6 amended: every emitted record has `price > 0`, and `clean_hours`
returns 0 on empty or unparsable input — but it is negative on negative
numeric strings, so `laborHours ≥ 0` does not hold in general. -/
theorem price_positive_hours_default :
    (∀ rows p, p ∈ process_crm_data rows → 0 < p.price) ∧
    clean_hours "" = 0 ∧ clean_hours "abc" = 0 ∧ clean_hours "-1" = -1 := by
  refine ⟨?_, by decide, by decide, by decide⟩
  intro rows p hp
  match rows with
  | [] => simp [process_crm_data] at hp
  | header :: body =>
    rw [show process_crm_data (header :: body) =
      body.filterMap (processRow (resolveHeader header)) from rfl] at hp
    rw [List.mem_filterMap] at hp
    obtain ⟨row, _, hrow⟩ := hp
    unfold processRow at hrow
    split_ifs at hrow with h1 h2 h3 h4
    rw [Option.some.injEq] at hrow
    subst hrow
    exact lt_of_not_le h4

/-- C6 amended witness: positivity applied to the record of a concrete run. -/
theorem price_positive_hours_default_witness :
    (0 : ℚ) < ({ id := "", name := "Widget", displayName := "Widget", price := 5,
                 laborHours := 0, description := "", category := "Other Services",
                 tier := none, upsellTo := [] } : Package).price :=
  price_positive_hours_default.1 [["Name", "Sales Price"], ["Widget", "5"]] _ (by decide)

/-- Helper: the running minimum never exceeds its start value. -/
theorem startFold_le_acc (l : List Package) : ∀ (acc : WithTop ℚ),
    l.foldl (fun a p => if (p.price : WithTop ℚ) < a then (p.price : WithTop ℚ) else a) acc
      ≤ acc := by
  induction l with
  | nil => intro acc; exact le_refl acc
  | cons p l ih =>
    intro acc
    rw [List.foldl_cons]
    refine le_trans (ih _) ?_
    split_ifs with h
    · exact le_of_lt h
    · exact le_refl acc

/-- Helper: the running minimum is a lower bound of the prices it saw. -/
theorem startFold_le_mem (l : List Package) : ∀ (acc : WithTop ℚ) (p : Package), p ∈ l →
    l.foldl (fun a p => if (p.price : WithTop ℚ) < a then (p.price : WithTop ℚ) else a) acc
      ≤ (p.price : WithTop ℚ) := by
  induction l with
  | nil => intro acc p hp; exact absurd hp (List.not_mem_nil p)
  | cons q l ih =>
    intro acc p hp
    rw [List.foldl_cons]
    rcases List.mem_cons.mp hp with h | h
    · subst h
      refine le_trans (startFold_le_acc l _) ?_
      split_ifs with hlt
      · exact le_refl _
      · exact not_lt.mp hlt
    · exact ih _ p h

/-- Helper: the running minimum is its start value or one of the prices. -/
theorem startFold_attained (l : List Package) : ∀ (acc : WithTop ℚ),
    (l.foldl (fun a p => if (p.price : WithTop ℚ) < a then (p.price : WithTop ℚ) else a) acc
        = acc) ∨
      ∃ p ∈ l,
        l.foldl (fun a p => if (p.price : WithTop ℚ) < a then (p.price : WithTop ℚ) else a) acc
          = (p.price : WithTop ℚ) := by
  induction l with
  | nil => intro acc; exact Or.inl rfl
  | cons q l ih =>
    intro acc
    rw [List.foldl_cons]
    rcases ih (if (q.price : WithTop ℚ) < acc then (q.price : WithTop ℚ) else acc) with h | h
    · rw [h]
      split_ifs with hlt
      · exact Or.inr ⟨q, List.mem_cons_self q l, rfl⟩
      · exact Or.inl rfl
    · obtain ⟨p, hpl, hpe⟩ := h
      exact Or.inr ⟨p, List.mem_cons_of_mem q hpl, hpe⟩

/-- Helper: inserting into a list leaves the subsequence of any fixed price
unchanged except that an element of that price lands in front — the
stability core of the per-category sort. -/
theorem filter_priceEq_orderedInsert (a : Package) (q : ℚ) : ∀ (s : List Package),
    (List.orderedInsert priceLe a s).filter (fun p => p.price == q) =
      if a.price == q then a :: s.filter (fun p => p.price == q)
      else s.filter (fun p => p.price == q) := by
  intro s
  induction s with
  | nil =>
    rw [List.orderedInsert_nil, List.filter_cons]
  | cons b s ih =>
    rw [show List.orderedInsert priceLe a (b :: s) =
      if priceLe a b then a :: b :: s else b :: List.orderedInsert priceLe a s from rfl]
    by_cases hab : priceLe a b
    · rw [if_pos hab, List.filter_cons]
    · rw [if_neg hab, List.filter_cons, ih, List.filter_cons]
      have hba : b.price < a.price := lt_of_not_le hab
      by_cases haq : a.price = q
      · have hbq : ¬ b.price = q := by
          intro h
          rw [h, ← haq] at hba
          exact lt_irrefl _ hba
        simp [beq_iff_eq, haq, hbq]
      · simp [beq_iff_eq, haq]

/-- Helper: the insertion sort by price is stable — for every price value the
equal-price subsequence keeps its original order. -/
theorem filter_priceEq_insertionSort (q : ℚ) : ∀ (l : List Package),
    (l.insertionSort priceLe).filter (fun p => p.price == q) =
      l.filter (fun p => p.price == q) := by
  intro l
  induction l with
  | nil => rfl
  | cons a l ih =>
    rw [show (a :: l).insertionSort priceLe =
      List.orderedInsert priceLe a (l.insertionSort priceLe) from rfl]
    rw [filter_priceEq_orderedInsert, ih, List.filter_cons]

/-- C7: the aggregator's groups are sorted ascending by category name; within
each group the packages are sorted ascending by price, the sort is stable
(each equal-price subsequence keeps the input order of the category's
records), and `startingAt` is the minimum of the group's prices (a lower
bound that is attained). -/
theorem organize_spec (pkgs : List Package) :
    List.Sorted (· ≤ ·) ((organize_by_category pkgs).map CategoryGroup.name) ∧
    ∀ g ∈ organize_by_category pkgs,
      List.Sorted priceLe g.packages ∧
      (∀ p ∈ g.packages, g.startingAt ≤ (p.price : WithTop ℚ)) ∧
      (∃ p ∈ g.packages, g.startingAt = (p.price : WithTop ℚ)) ∧
      (∀ q : ℚ, g.packages.filter (fun p => p.price == q) =
        (pkgs.filter (fun p => p.category == g.name)).filter (fun p => p.price == q)) := by
  constructor
  · have hmap : (organize_by_category pkgs).map CategoryGroup.name =
        ((pkgs.map Package.category).dedup).insertionSort (· ≤ ·) := by
      unfold organize_by_category
      rw [List.map_map]
      exact List.map_id _
    rw [hmap]
    exact List.sorted_insertionSort _ _
  · intro g hg
    unfold organize_by_category at hg
    rw [List.mem_map] at hg
    obtain ⟨c, hc, rfl⟩ := hg
    have hcmem : c ∈ (pkgs.map Package.category).dedup :=
      (List.perm_insertionSort (· ≤ · : String → String → Prop)
        ((pkgs.map Package.category).dedup)).mem_iff.mp hc
    obtain ⟨p₀, hp₀, hp₀c⟩ := List.mem_map.mp (List.mem_dedup.mp hcmem)
    have hp₀g : p₀ ∈ pkgs.filter (fun p => p.category == c) := by
      rw [List.mem_filter]
      exact ⟨hp₀, by rw [beq_iff_eq]; exact hp₀c⟩
    refine ⟨?_, ?_, ?_, ?_⟩
    · exact List.sorted_insertionSort priceLe _
    · intro p hp
      have hpg : p ∈ pkgs.filter (fun p => p.category == c) :=
        (List.perm_insertionSort priceLe _).mem_iff.mp hp
      exact startFold_le_mem _ ⊤ p hpg
    · rcases startFold_attained (pkgs.filter (fun p => p.category == c)) ⊤ with h | h
      · exfalso
        have hle := startFold_le_mem (pkgs.filter (fun p => p.category == c)) ⊤ p₀ hp₀g
        rw [h] at hle
        exact absurd hle (by simp)
      · obtain ⟨p, hpg, hpe⟩ := h
        exact ⟨p, (List.perm_insertionSort priceLe _).mem_iff.mpr hpg, hpe⟩
    · intro q
      exact filter_priceEq_insertionSort q (pkgs.filter (fun p => p.category == c))

/-- C7 witness: the attained-minimum clause at a concrete one-package run. -/
theorem organize_spec_witness :
    ∃ p ∈ ({ name := "Other Services", startingAt := ((5 : ℚ) : WithTop ℚ),
             packages := [{ id := "", name := "Widget", displayName := "Widget", price := 5,
                            laborHours := 0, description := "", category := "Other Services",
                            tier := none, upsellTo := [] }],
             icon := "package" } : CategoryGroup).packages,
      ({ name := "Other Services", startingAt := ((5 : ℚ) : WithTop ℚ),
         packages := [{ id := "", name := "Widget", displayName := "Widget", price := 5,
                        laborHours := 0, description := "", category := "Other Services",
                        tier := none, upsellTo := [] }],
         icon := "package" } : CategoryGroup).startingAt = (p.price : WithTop ℚ) :=
  ((organize_spec (process_crm_data [["Name", "Sales Price"], ["Widget", "5"]])).2
    _ (by decide)).2.2.1

mutual

/-- Helper: membership in an element's preorder walk is transitive. -/
theorem mem_iter_trans_elem : ∀ (c b : XmlElem), b ∈ iterElems c →
    ∀ a, a ∈ iterElems b → a ∈ iterElems c
  | .node t x cs, b, hb, a, ha => by
    rw [show iterElems (.node t x cs) = .node t x cs :: iterList cs from rfl] at hb ⊢
    rcases List.mem_cons.mp hb with h | h
    · subst h
      exact ha
    · exact List.mem_cons_of_mem _ (mem_iter_trans_list cs b h a ha)

/-- Helper: membership in a forest's preorder walk is transitive. -/
theorem mem_iter_trans_list : ∀ (cs : List XmlElem) (b : XmlElem), b ∈ iterList cs →
    ∀ a, a ∈ iterElems b → a ∈ iterList cs
  | [], b, hb, _, _ => absurd hb (List.not_mem_nil b)
  | c :: cs, b, hb, a, ha => by
    rw [show iterList (c :: cs) = iterElems c ++ iterList cs from rfl] at hb ⊢
    rcases List.mem_append.mp hb with h | h
    · exact List.mem_append_left _ (mem_iter_trans_elem c b h a ha)
    · exact List.mem_append_right _ (mem_iter_trans_list cs b h a ha)

end

/-- Helper: a successful namespaced `find` returns a descendant with exactly
the requested tag. -/
theorem findDesc_mem_tag (full : String) (e t : XmlElem) (h : findDesc full e = some t) :
    t.tag = full ∧ t ∈ iterElems e := by
  match e with
  | .node tg x cs =>
    rw [show findDesc full (.node tg x cs) =
      (iterList cs).find? (fun c => c.tag == full) from rfl] at h
    refine ⟨by simpa using List.find?_some h, ?_⟩
    rw [show iterElems (.node tg x cs) = .node tg x cs :: iterList cs from rfl]
    exact List.mem_cons_of_mem _ (List.mem_of_find?_eq_some h)

/-- C8: when no element of the document has "Table" in its tag, the parser
raises `ValueError("Could not find Table element in XML")` and the run
propagates it — no document (not even a partial one) is produced. -/
theorem no_table_aborts (root : XmlElem)
    (h : ∀ e ∈ iterElems root, containsStr e.tag "Table" = false) :
    parse_xml_spreadsheet root = Except.error "Could not find Table element in XML" ∧
    run_pipeline_xml root = Except.error "Could not find Table element in XML" := by
  have hscan : (iterElems root).find? (fun e => containsStr e.tag "Table") = none :=
    List.find?_eq_none.mpr (fun e he => by simp [h e he])
  have hnsT : ∀ w, w ∈ iterElems root → findDesc nsTable w = none := by
    intro w hw
    cases hft : findDesc nsTable w with
    | none => rfl
    | some t =>
      exfalso
      obtain ⟨htag, htmem⟩ := findDesc_mem_tag nsTable w t hft
      have : containsStr t.tag "Table" = false := h t (mem_iter_trans_elem root w hw t htmem)
      rw [htag] at this
      exact absurd this (by decide)
  have htab : tableOf root = none := by
    unfold tableOf
    cases hws : worksheetOf root with
    | none => rw [hscan]
    | some w =>
      have hwmem : w ∈ iterElems root := by
        unfold worksheetOf at hws
        cases hfd : findDesc nsWorksheet root with
        | some w' =>
          rw [hfd] at hws
          cases hws
          exact (findDesc_mem_tag nsWorksheet root w hfd).2
        | none =>
          rw [hfd] at hws
          exact List.mem_of_find?_eq_some hws
      dsimp only
      rw [hnsT w hwmem, hscan]
  have hparse : parse_xml_spreadsheet root =
      Except.error "Could not find Table element in XML" := by
    unfold parse_xml_spreadsheet
    rw [htab]
  refine ⟨hparse, ?_⟩
  unfold run_pipeline_xml
  rw [hparse]

/-- C8 witness: a table-less workbook makes the run abort with the error. -/
theorem no_table_aborts_witness :
    run_pipeline_xml (XmlElem.node "Workbook" none []) =
      Except.error "Could not find Table element in XML" :=
  (no_table_aborts (XmlElem.node "Workbook" none [])
    (fun e he => by
      rw [show iterElems (XmlElem.node "Workbook" none []) =
        [XmlElem.node "Workbook" none []] from rfl] at he
      rw [List.mem_singleton.mp he]
      decide)).2
